/-
Verification of the StationLocator core of the vayuayan repository
(src/vayuayan/client.py and src/vayuayan/utils.py).

The embedding models the three geographic search operations of
`CPCBClient` — `get_nearest_station`, `get_k_nearest_stations` and
`get_nearest_station_within_radius` — together with the distance
function `haversine_distance` of utils.py.

Modelling conventions:
  * A station record's `latitude` / `longitude` fields are stored as
    `Option R`: `some x` models a field on which `float(...)` succeeds
    with value `x`; `none` models a missing field, an empty string or a
    non-numeric string (where `float(...)` raises `ValueError`,
    `KeyError` or `TypeError`, which the source catches and skips).
  * The search algorithms only ever pass the coordinates to the
    distance function and compare the resulting distances, so they are
    embedded generically over a linearly ordered field `R` and over the
    distance function `dist` (the source instantiates `dist` with
    `haversine_distance`, embedded over `ℝ` below).
  * Python's `float("inf")` initial minimum is modelled by an `Option`
    accumulator: `none` means "no candidate yet" and any distance beats
    it, which is exactly how `inf` behaves for the finite distances the
    source produces.
  * The `heapq` module is Python standard library (not repository
    code).  It is modelled by its documented contract: the heap is a
    collection whose first element `heap[0]` is the least element in
    the tuple order; `heappush` adds an element, `heapreplace` removes
    `heap[0]` and adds an element.  The model keeps the collection as a
    list sorted in the tuple order (so `heap[0]` is the head); it
    agrees with CPython's array layout on the retained multiset and on
    `heap[0]`, which is all the source observes apart from the relative
    order of equal-distance entries in the final stable sort.
  * Python's `sorted(results, key=lambda x: x[1])` is a stable sort by
    the second component; it is modelled by `List.insertionSort`, which
    is stable.
-/
import Mathlib

namespace Vayuayan

/-- A station record as consumed by the search code of client.py.
`latitude`/`longitude` are the result of attempting
`float(station["latitude"])` / `float(station["longitude"])`:
`some x` when the conversion succeeds, `none` when the record is
missing the field or holds an empty or non-numeric string. -/
structure Station (R : Type) where
  id : String
  latitude : Option R
  longitude : Option R
deriving DecidableEq, Repr

/-- A city group as returned by `list_stations`: the search code only
reads `city.get("stationsInCity", [])`. -/
structure City (R : Type) where
  stationsInCity : List (Station R)
deriving DecidableEq, Repr

/-- The `CPCBError` exceptions raised by the search code. -/
inductive CPCBError where
  | noStationsAvailable
  | noValidStations
deriving DecidableEq, Repr

/-- Exceptions escaping `get_k_nearest_stations`: either a `CPCBError`
(empty city list) or the uncaught `IndexError` from evaluating
`heap[0]` on an empty heap (the `except` clause catches only
`ValueError`, `KeyError`, `TypeError`). -/
inductive PyErr where
  | cpcb (e : CPCBError)
  | indexError
deriving DecidableEq, Repr

instance {ε α : Type} [DecidableEq ε] [DecidableEq α] : DecidableEq (Except ε α)
  | .error e, .error f => decidable_of_iff (e = f) (by simp)
  | .error _, .ok _ => .isFalse (by simp)
  | .ok _, .error _ => .isFalse (by simp)
  | .ok a, .ok b => decidable_of_iff (a = b) (by simp)

/-- Result of the `float(...)` conversions of both coordinates of a
station: the coordinate pair when both succeed, else `none` (the
source skips the station via its `except` clause). -/
def Station.parsedCoords {R : Type} (s : Station R) : Option (R × R) :=
  match s.latitude, s.longitude with
  | some a, some b => some (a, b)
  | _, _ => none

/-- The flattened city-then-station iteration order of the nested
`for city in cities: for station in city.get("stationsInCity", [])`
loops. -/
def allStations {R : Type} (cities : List (City R)) : List (Station R) :=
  cities.flatMap City.stationsInCity

/-- A station with validly parsed coordinates. -/
structure Entry (R : Type) where
  station : Station R
  slat : R
  slon : R
deriving DecidableEq, Repr

/-- The valid entries of a station list, in iteration order: stations
whose coordinates both parse, paired with the parsed coordinates. -/
def stationEntries {R : Type} (stations : List (Station R)) : List (Entry R) :=
  stations.filterMap fun s => s.parsedCoords.map fun c => ⟨s, c.1, c.2⟩

/-- The valid entries of a city list in the flattened iteration order. -/
def validEntries {R : Type} (cities : List (City R)) : List (Entry R) :=
  stationEntries (allStations cities)

/-- Distance of the query point to an entry's station. -/
def entryD {R : Type} (dist : R → R → R → R → R) (tlat tlon : R) (e : Entry R) : R :=
  dist tlat tlon e.slat e.slon

section Searches

variable {R : Type} [LinearOrderedField R]

/-- The station loop of `get_nearest_station` (client.py lines
258-276).  The accumulator holds `(min_distance, nearest_station_id)`;
`none` models the initial `min_distance = float("inf")`,
`nearest_station_id = None` state, which any distance beats. -/
def nearestFold (dist : R → R → R → R → R) (tlat tlon : R) :
    List (Station R) → Option (R × String) → Option (R × String)
  | [], acc => acc
  | s :: rest, acc =>
    match s.parsedCoords with
    | none => nearestFold dist tlat tlon rest acc
    | some (slat, slon) =>
      let d := dist tlat tlon slat slon
      let acc' :=
        match acc with
        | none => some (d, s.id)
        | some (m, i) => if d < m then some (d, s.id) else some (m, i)
      nearestFold dist tlat tlon rest acc'

/-- `CPCBClient.get_nearest_station` (client.py lines 230-283), with
the network fetch abstracted into the explicit `cities` argument and
`return_distance=True` (the flag only selects whether the distance is
also returned). -/
def get_nearest_station (dist : R → R → R → R → R) (lat lon : R)
    (cities : List (City R)) : Except CPCBError (String × R) :=
  if cities.isEmpty then .error .noStationsAvailable
  else
    match nearestFold dist lat lon (allStations cities) none with
    | none => .error .noValidStations
    | some (m, sid) => .ok (sid, m)

/-- One element of the heap of `get_k_nearest_stations`: the tuple
`(-distance, station["id"], distance, station)` pushed at client.py
lines 327-329. -/
structure HeapEntry (R : Type) where
  negDist : R
  sid : String
  dist : R
  station : Station R
deriving DecidableEq, Repr

/-- Python's tuple order on heap elements.  The first two components
`(-distance, station["id"])` decide every comparison the source can
make without raising (comparing further would compare two dicts, which
raises `TypeError`; that can only happen for two entries with equal
distance and equal id). -/
def heapLE {R : Type} [LinearOrderedField R] (a b : HeapEntry R) : Prop :=
  a.negDist < b.negDist ∨ (a.negDist = b.negDist ∧ a.sid ≤ b.sid)

instance : DecidableRel (heapLE (R := R)) := fun _ _ =>
  inferInstanceAs (Decidable (_ ∨ _))

/-- `heapq.heappush`, modelled by the documented heap contract (see the
header comment): the collection is kept sorted in the tuple order so
that `heap[0]` is its least element. -/
def heapPush (e : HeapEntry R) (heap : List (HeapEntry R)) : List (HeapEntry R) :=
  List.orderedInsert heapLE e heap

/-- The station loop of `get_k_nearest_stations` (client.py lines
315-337).  `Except Unit` models the uncaught `IndexError` raised by
`heap[0]` when the heap is empty (which happens exactly when `k ≤ 0`
and a valid station is reached). -/
def kNearestFold (dist : R → R → R → R → R) (tlat tlon : R) (k : ℤ) :
    List (Station R) → List (HeapEntry R) → Except Unit (List (HeapEntry R))
  | [], heap => .ok heap
  | s :: rest, heap =>
    match s.parsedCoords with
    | none => kNearestFold dist tlat tlon k rest heap
    | some (slat, slon) =>
      let d := dist tlat tlon slat slon
      if (heap.length : ℤ) < k then
        kNearestFold dist tlat tlon k rest (heapPush ⟨-d, s.id, d, s⟩ heap)
      else
        match heap with
        | [] => .error ()
        | top :: restHeap =>
          if d < -top.negDist then
            kNearestFold dist tlat tlon k rest (heapPush ⟨-d, s.id, d, s⟩ restHeap)
          else
            kNearestFold dist tlat tlon k rest (top :: restHeap)

/-- `CPCBClient.get_k_nearest_stations` (client.py lines 285-341).
The final `sorted(results, key=lambda x: x[1])` is a stable sort by
distance, modelled by `List.insertionSort`. -/
def get_k_nearest_stations (dist : R → R → R → R → R) (lat lon : R) (k : ℤ)
    (cities : List (City R)) : Except PyErr (List (Station R × R)) :=
  if cities.isEmpty then .error (.cpcb .noStationsAvailable)
  else
    match kNearestFold dist lat lon k (allStations cities) [] with
    | .error _ => .error .indexError
    | .ok heap =>
      .ok (List.insertionSort (fun a b => a.2 ≤ b.2)
        (heap.map fun e => (e.station, e.dist)))

/-- The station loop of `get_nearest_station_within_radius` (client.py
lines 380-402).  The bounding-box bounds are computed before the loop,
as in the source.  The accumulator holds `(min_distance, station_id)`,
`none` modelling `min_distance = float("inf")`, `nearest_station =
None`. -/
def radiusFold (dist : R → R → R → R → R) (tlat tlon maxd : R)
    (minLat maxLat minLon maxLon : R) :
    List (Station R) → Option (R × String) → Option (R × String)
  | [], acc => acc
  | s :: rest, acc =>
    match s.parsedCoords with
    | none => radiusFold dist tlat tlon maxd minLat maxLat minLon maxLon rest acc
    | some (slat, slon) =>
      if minLat ≤ slat ∧ slat ≤ maxLat ∧ minLon ≤ slon ∧ slon ≤ maxLon then
        let d := dist tlat tlon slat slon
        match acc with
        | none =>
          -- `distance < min_distance` holds vacuously against `inf`
          if d ≤ maxd then
            radiusFold dist tlat tlon maxd minLat maxLat minLon maxLon rest (some (d, s.id))
          else
            radiusFold dist tlat tlon maxd minLat maxLat minLon maxLon rest acc
        | some (m, i) =>
          if d ≤ maxd ∧ d < m then
            radiusFold dist tlat tlon maxd minLat maxLat minLon maxLon rest (some (d, s.id))
          else
            radiusFold dist tlat tlon maxd minLat maxLat minLon maxLon rest (some (m, i))
      else radiusFold dist tlat tlon maxd minLat maxLat minLon maxLon rest acc

/-- `CPCBClient.get_nearest_station_within_radius` (client.py lines
343-404).  `cosr` models `math.cos(math.radians(·))` (instantiated
with the real cosine below); there is no emptiness check, and the
not-found outcome is the normal value `none`. -/
def get_nearest_station_within_radius (dist : R → R → R → R → R) (cosr : R → R)
    (lat lon maxd : R) (cities : List (City R)) : Option (String × R) :=
  let latDelta := maxd / 111
  let lonDelta := maxd / (111 * cosr lat)
  let minLat := lat - latDelta
  let maxLat := lat + latDelta
  let minLon := lon - lonDelta
  let maxLon := lon + lonDelta
  (radiusFold dist lat lon maxd minLat maxLat minLon maxLon
      (allStations cities) none).map
    fun p => (p.2, p.1)

end Searches

/-- `math.radians`: degrees to radians. -/
noncomputable def radians (x : ℝ) : ℝ := x * Real.pi / 180

/-- `haversine_distance` of utils.py (lines 644-669), embedded over the
real numbers: the float arithmetic is modelled as exact real
arithmetic, `math.sqrt` as `Real.sqrt` and `math.asin` as
`Real.arcsin` (their domains are checked by
`haversine_distance_checked` below). -/
noncomputable def haversine_distance (lat1 lon1 lat2 lon2 : ℝ) : ℝ :=
  let l1 := radians lat1
  let o1 := radians lon1
  let l2 := radians lat2
  let o2 := radians lon2
  let dlat := l2 - l1
  let dlon := o2 - o1
  let a := Real.sin (dlat / 2) ^ 2 +
    Real.cos l1 * Real.cos l2 * Real.sin (dlon / 2) ^ 2
  let c := 2 * Real.arcsin (Real.sqrt a)
  c * 6371

/-- `haversine_distance` with the partiality of the Python library
functions made explicit: `math.sqrt` raises `ValueError` on a negative
argument and `math.asin` raises `ValueError` on an argument outside
`[-1, 1]`; `none` models such an uncaught exception. -/
noncomputable def haversine_distance_checked (lat1 lon1 lat2 lon2 : ℝ) : Option ℝ :=
  let l1 := radians lat1
  let o1 := radians lon1
  let l2 := radians lat2
  let o2 := radians lon2
  let dlat := l2 - l1
  let dlon := o2 - o1
  let a := Real.sin (dlat / 2) ^ 2 +
    Real.cos l1 * Real.cos l2 * Real.sin (dlon / 2) ^ 2
  if a < 0 then none
  else if 1 < Real.sqrt a then none
  else some (2 * Real.arcsin (Real.sqrt a) * 6371)

/-- Modelled from the spec (§4.1): "the great-circle distance between
two points given in decimal-degree coordinates, using the haversine
formula with Earth radius 6371 km.  Inputs are converted to radians
internally." -/
noncomputable def haversineFormulaSpec (lat1 lon1 lat2 lon2 : ℝ) : ℝ :=
  2 * 6371 *
    Real.arcsin (Real.sqrt (Real.sin ((radians lat2 - radians lat1) / 2) ^ 2 +
      Real.cos (radians lat1) * Real.cos (radians lat2) *
        Real.sin ((radians lon2 - radians lon1) / 2) ^ 2))

/-! ### Reference functions the searches are proved against -/

section ReferenceDefs

variable {R : Type} [LinearOrderedField R]

/-- First element of `l` attaining the minimum of `f`: the
specification all three linear searches are proved against. -/
def firstMin {α : Type} (f : α → R) : List α → Option α
  | [] => none
  | x :: xs =>
    match firstMin f xs with
    | none => some x
    | some y => if f x ≤ f y then some x else some y

/-- The loop of `get_nearest_station`, rephrased on the list of valid
entries (invalid stations contribute nothing to the fold). -/
def nearestFoldE (dist : R → R → R → R → R) (tlat tlon : R) :
    List (Entry R) → Option (R × String) → Option (R × String)
  | [], acc => acc
  | e :: rest, acc =>
    let d := entryD dist tlat tlon e
    nearestFoldE dist tlat tlon rest
      (match acc with
        | none => some (d, e.station.id)
        | some (m, i) => if d < m then some (d, e.station.id) else some (m, i))

/-- The bounding-box test of `get_nearest_station_within_radius` on a
valid entry. -/
def inBox (minLat maxLat minLon maxLon : R) (e : Entry R) : Prop :=
  minLat ≤ e.slat ∧ e.slat ≤ maxLat ∧ minLon ≤ e.slon ∧ e.slon ≤ maxLon

instance {minLat maxLat minLon maxLon : R} {e : Entry R} :
    Decidable (inBox minLat maxLat minLon maxLon e) :=
  inferInstanceAs (Decidable (_ ∧ _ ∧ _ ∧ _))

/-- The loop of `get_nearest_station_within_radius`, rephrased on the
list of valid entries. -/
def radiusFoldE (dist : R → R → R → R → R) (tlat tlon maxd : R)
    (minLat maxLat minLon maxLon : R) :
    List (Entry R) → Option (R × String) → Option (R × String)
  | [], acc => acc
  | e :: rest, acc =>
    if inBox minLat maxLat minLon maxLon e then
      match acc with
      | none =>
        if entryD dist tlat tlon e ≤ maxd then
          radiusFoldE dist tlat tlon maxd minLat maxLat minLon maxLon rest
            (some (entryD dist tlat tlon e, e.station.id))
        else
          radiusFoldE dist tlat tlon maxd minLat maxLat minLon maxLon rest none
      | some (m, i) =>
        if entryD dist tlat tlon e ≤ maxd ∧ entryD dist tlat tlon e < m then
          radiusFoldE dist tlat tlon maxd minLat maxLat minLon maxLon rest
            (some (entryD dist tlat tlon e, e.station.id))
        else
          radiusFoldE dist tlat tlon maxd minLat maxLat minLon maxLon rest (some (m, i))
    else radiusFoldE dist tlat tlon maxd minLat maxLat minLon maxLon rest acc

/-- The loop of `get_k_nearest_stations`, rephrased on the list of
valid entries. -/
def kFoldE (dist : R → R → R → R → R) (tlat tlon : R) (k : ℤ) :
    List (Entry R) → List (HeapEntry R) → Except Unit (List (HeapEntry R))
  | [], heap => .ok heap
  | e :: rest, heap =>
    let d := entryD dist tlat tlon e
    if (heap.length : ℤ) < k then
      kFoldE dist tlat tlon k rest (heapPush ⟨-d, e.station.id, d, e.station⟩ heap)
    else
      match heap with
      | [] => .error ()
      | top :: restHeap =>
        if d < -top.negDist then
          kFoldE dist tlat tlon k rest (heapPush ⟨-d, e.station.id, d, e.station⟩ restHeap)
        else
          kFoldE dist tlat tlon k rest (top :: restHeap)

/-- Stations whose coordinate fields fail to parse, removed (the
per-record tolerance of §3 of the spec: such records are excluded from
the search space). -/
def removeInvalidStations (cities : List (City R)) : List (City R) :=
  cities.map fun c => ⟨c.stationsInCity.filter fun s => s.parsedCoords.isSome⟩

end ReferenceDefs

/-! ### Concrete inputs used by witnesses and counterexamples -/

/-- `math.cos(math.radians(·))`, the longitude shrink factor used by
the bounding-box computation of `get_nearest_station_within_radius`. -/
noncomputable def cosDeg : ℝ → ℝ := fun x => Real.cos (radians x)

/-- One station at (80°N, 180°E): about 2223 km from the query point
(80°N, 0°E) along the great circle over the pole, yet 180° away in
longitude — far outside the bounding box for radius 2500 km. -/
def exCityPolar : List (City ℝ) := [⟨[⟨"S", some 80, some 180⟩]⟩]

/-- One city whose only station has an unparseable latitude. -/
def exCitiesInvalidR : List (City ℝ) := [⟨[⟨"X", none, some 1⟩]⟩]

/-- Two distinct stations at identical coordinates (80°N, 180°E) — at
exactly equal haversine distance from every query point — with the
lexicographically larger id "B" first in iteration order. -/
def exCitiesTieR : List (City ℝ) :=
  [⟨[⟨"B", some 80, some 180⟩, ⟨"A", some 80, some 180⟩]⟩]

/-! ### Basic facts about valid entries -/

theorem stationEntries_nil {R : Type} : stationEntries ([] : List (Station R)) = [] := rfl

theorem stationEntries_cons {R : Type} (s : Station R) (ss : List (Station R)) :
    stationEntries (s :: ss) =
      (match s.parsedCoords with
        | some c => [⟨s, c.1, c.2⟩]
        | none => []) ++ stationEntries ss := by
  cases h : s.parsedCoords <;>
    simp [stationEntries, List.filterMap_cons, h]

theorem validEntries_eq {R : Type} (cities : List (City R)) :
    validEntries cities = stationEntries (allStations cities) := rfl

/-! ### Properties of `firstMin` -/

section FirstMin

variable {R : Type} [LinearOrderedField R] {α : Type}

@[simp] theorem firstMin_nil (f : α → R) : firstMin (R := R) f [] = none := rfl

theorem firstMin_eq_none_iff (f : α → R) (l : List α) :
    firstMin f l = none ↔ l = [] := by
  cases l with
  | nil => simp
  | cons x xs =>
    simp only [firstMin]
    cases firstMin f xs with
    | none => simp
    | some y =>
      constructor
      · intro h
        by_cases hxy : f x ≤ f y <;> simp [hxy] at h
      · intro h
        exact absurd h (List.cons_ne_nil x xs)

theorem firstMin_spec (f : α → R) (l : List α) (x : α)
    (h : firstMin f l = some x) :
    ∃ pre post, l = pre ++ x :: post ∧ (∀ y ∈ pre, f x < f y) ∧
      ∀ y ∈ l, f x ≤ f y := by
  induction l generalizing x with
  | nil => simp [firstMin] at h
  | cons a as ih =>
    rw [firstMin] at h
    cases hm : firstMin f as with
    | none =>
      rw [hm] at h
      have hnil : as = [] := (firstMin_eq_none_iff f as).mp hm
      subst hnil
      cases h
      exact ⟨[], [], rfl, by simp, by simp⟩
    | some y =>
      rw [hm] at h
      dsimp only at h
      obtain ⟨pre, post, hdec, hpre, hall⟩ := ih y hm
      by_cases hxy : f a ≤ f y
      · rw [if_pos hxy] at h
        cases h
        refine ⟨[], as, rfl, by simp, ?_⟩
        intro z hz
        rcases List.mem_cons.mp hz with hz | hz
        · exact le_of_eq (congrArg f hz.symm)
        · exact le_trans hxy (hall z hz)
      · rw [if_neg hxy] at h
        cases h
        refine ⟨a :: pre, post, by simp [hdec], ?_, ?_⟩
        · intro z hz
          rcases List.mem_cons.mp hz with hz | hz
          · rw [hz]; exact lt_of_not_le hxy
          · exact hpre z hz
        · intro z hz
          rcases List.mem_cons.mp hz with hz | hz
          · rw [hz]; exact le_of_lt (lt_of_not_le hxy)
          · exact hall z hz

end FirstMin

/-! ### The nearest-station fold, reduced to `firstMin` -/

section NearestLemmas

variable {R : Type} [LinearOrderedField R]
variable (dist : R → R → R → R → R) (tlat tlon : R)

theorem nearestFold_eq_foldE (ss : List (Station R)) (acc : Option (R × String)) :
    nearestFold dist tlat tlon ss acc =
      nearestFoldE dist tlat tlon (stationEntries ss) acc := by
  induction ss generalizing acc with
  | nil => rfl
  | cons s rest ih =>
    rw [stationEntries_cons]
    cases h : s.parsedCoords with
    | none => simp only [nearestFold, h, ih, List.nil_append]
    | some c =>
      simp only [nearestFold, h, List.cons_append, List.nil_append, nearestFoldE, ih]
      rfl

theorem nearestFoldE_some (es : List (Entry R)) (m : R) (i : String) :
    nearestFoldE dist tlat tlon es (some (m, i)) =
      match firstMin (entryD dist tlat tlon) es with
      | none => some (m, i)
      | some e =>
        if entryD dist tlat tlon e < m then some (entryD dist tlat tlon e, e.station.id)
        else some (m, i) := by
  induction es generalizing m i with
  | nil => rfl
  | cons a as ih =>
    have hL : nearestFoldE dist tlat tlon (a :: as) (some (m, i)) =
        nearestFoldE dist tlat tlon as
          (if entryD dist tlat tlon a < m then
            some (entryD dist tlat tlon a, a.station.id) else some (m, i)) := rfl
    rw [hL, firstMin]
    by_cases had : entryD dist tlat tlon a < m
    · rw [if_pos had, ih]
      cases hm : firstMin (entryD dist tlat tlon) as with
      | none => dsimp only; rw [if_pos had]
      | some y =>
        dsimp only
        by_cases hay : entryD dist tlat tlon a ≤ entryD dist tlat tlon y
        · rw [if_pos hay]
          dsimp only
          rw [if_neg (not_lt.mpr hay), if_pos had]
        · rw [if_neg hay]
          dsimp only
          rw [if_pos (lt_of_not_le hay), if_pos (lt_trans (lt_of_not_le hay) had)]
    · rw [if_neg had, ih]
      cases hm : firstMin (entryD dist tlat tlon) as with
      | none => dsimp only; rw [if_neg had]
      | some y =>
        dsimp only
        by_cases hay : entryD dist tlat tlon a ≤ entryD dist tlat tlon y
        · rw [if_pos hay]
          dsimp only
          have hym : ¬ entryD dist tlat tlon y < m := fun hc =>
            had (lt_of_le_of_lt hay hc)
          rw [if_neg hym, if_neg had]
        · rw [if_neg hay]

theorem nearestFoldE_none (es : List (Entry R)) :
    nearestFoldE dist tlat tlon es none =
      (firstMin (entryD dist tlat tlon) es).map
        fun e => (entryD dist tlat tlon e, e.station.id) := by
  cases es with
  | nil => rfl
  | cons a as =>
    have hL : nearestFoldE dist tlat tlon (a :: as) none =
        nearestFoldE dist tlat tlon as
          (some (entryD dist tlat tlon a, a.station.id)) := rfl
    rw [hL, nearestFoldE_some, firstMin]
    cases hm : firstMin (entryD dist tlat tlon) as with
    | none => rfl
    | some y =>
      dsimp only
      by_cases hay : entryD dist tlat tlon a ≤ entryD dist tlat tlon y
      · rw [if_pos hay, if_neg (not_lt.mpr hay)]
        rfl
      · rw [if_neg hay, if_pos (lt_of_not_le hay)]
        rfl

/-- The result of `get_nearest_station`, expressed via `firstMin` on
the valid entries. -/
theorem get_nearest_station_eq (cities : List (City R)) :
    get_nearest_station dist tlat tlon cities =
      if cities.isEmpty then .error .noStationsAvailable
      else
        match firstMin (entryD dist tlat tlon) (validEntries cities) with
        | none => .error .noValidStations
        | some e => .ok (e.station.id, entryD dist tlat tlon e) := by
  rw [get_nearest_station]
  by_cases hc : cities.isEmpty
  · simp [hc]
  · rw [if_neg hc, if_neg hc, nearestFold_eq_foldE, ← validEntries_eq,
      nearestFoldE_none]
    cases firstMin (entryD dist tlat tlon) (validEntries cities) <;> rfl

end NearestLemmas

/-! ### The bounded-radius fold, reduced to `firstMin` over the
box-and-radius-filtered entries -/

section RadiusLemmas

variable {R : Type} [LinearOrderedField R]
variable (dist : R → R → R → R → R) (cosr : R → R) (tlat tlon maxd : R)
variable (minLat maxLat minLon maxLon : R)

theorem radiusFold_eq_foldE (ss : List (Station R)) (acc : Option (R × String)) :
    radiusFold dist tlat tlon maxd minLat maxLat minLon maxLon ss acc =
      radiusFoldE dist tlat tlon maxd minLat maxLat minLon maxLon
        (stationEntries ss) acc := by
  induction ss generalizing acc with
  | nil => rfl
  | cons s rest ih =>
    rw [stationEntries_cons]
    cases h : s.parsedCoords with
    | none => simp only [radiusFold, h, ih, List.nil_append]
    | some c =>
      simp only [radiusFold, h, List.cons_append, List.nil_append, radiusFoldE, ih]
      cases acc <;> rfl

/-- On the valid entries, the bounded-radius loop is the nearest loop
restricted to the entries that pass both the bounding box and the
radius test. -/
theorem radiusFoldE_eq_nearestFoldE (es : List (Entry R)) (acc : Option (R × String)) :
    radiusFoldE dist tlat tlon maxd minLat maxLat minLon maxLon es acc =
      nearestFoldE dist tlat tlon
        (es.filter fun e =>
          decide (inBox minLat maxLat minLon maxLon e ∧ entryD dist tlat tlon e ≤ maxd))
        acc := by
  induction es generalizing acc with
  | nil => rfl
  | cons e rest ih =>
    by_cases hb : inBox minLat maxLat minLon maxLon e
    · by_cases hd : entryD dist tlat tlon e ≤ maxd
      · have hfil : (e :: rest).filter (fun e =>
            decide (inBox minLat maxLat minLon maxLon e ∧ entryD dist tlat tlon e ≤ maxd)) =
            e :: rest.filter (fun e =>
              decide (inBox minLat maxLat minLon maxLon e ∧ entryD dist tlat tlon e ≤ maxd)) :=
          List.filter_cons_of_pos (by simp [hb, hd])
        rw [hfil]
        cases acc with
        | none =>
          simp only [radiusFoldE, if_pos hb, if_pos hd, nearestFoldE, ih]
        | some p =>
          obtain ⟨m, i⟩ := p
          by_cases hm : entryD dist tlat tlon e < m
          · simp only [radiusFoldE, if_pos hb, if_pos (And.intro hd hm),
              nearestFoldE, ih, if_pos hm]
          · simp only [radiusFoldE, if_pos hb, nearestFoldE, ih,
              if_neg hm, if_neg (fun hc : _ ∧ _ => hm hc.2)]
      · have hfil : (e :: rest).filter (fun e =>
            decide (inBox minLat maxLat minLon maxLon e ∧ entryD dist tlat tlon e ≤ maxd)) =
            rest.filter (fun e =>
              decide (inBox minLat maxLat minLon maxLon e ∧ entryD dist tlat tlon e ≤ maxd)) :=
          List.filter_cons_of_neg (by simp [hd])
        rw [hfil]
        cases acc with
        | none =>
          simp only [radiusFoldE, if_pos hb, if_neg hd, ih]
        | some p =>
          obtain ⟨m, i⟩ := p
          simp only [radiusFoldE, if_pos hb, ih,
            if_neg (fun hc : _ ∧ _ => hd hc.1)]
    · have hfil : (e :: rest).filter (fun e =>
          decide (inBox minLat maxLat minLon maxLon e ∧ entryD dist tlat tlon e ≤ maxd)) =
          rest.filter (fun e =>
            decide (inBox minLat maxLat minLon maxLon e ∧ entryD dist tlat tlon e ≤ maxd)) :=
        List.filter_cons_of_neg (by simp [hb])
      rw [hfil]
      simp only [radiusFoldE, if_neg hb, ih]

/-- The candidate filter of the bounded-radius search, with the
bounding box as computed by the source from the query point and the
radius. -/
def radiusCandidates (cities : List (City R)) : List (Entry R) :=
  (validEntries cities).filter fun e =>
    decide (inBox (tlat - maxd / 111) (tlat + maxd / 111)
      (tlon - maxd / (111 * cosr tlat)) (tlon + maxd / (111 * cosr tlat)) e ∧
      entryD dist tlat tlon e ≤ maxd)

/-- The result of `get_nearest_station_within_radius`, expressed via
`firstMin` on the filtered valid entries. -/
theorem get_within_radius_eq (cities : List (City R)) :
    get_nearest_station_within_radius dist cosr tlat tlon maxd cities =
      (firstMin (entryD dist tlat tlon)
          (radiusCandidates dist cosr tlat tlon maxd cities)).map
        fun e => (e.station.id, entryD dist tlat tlon e) := by
  show (radiusFold dist tlat tlon maxd (tlat - maxd / 111) (tlat + maxd / 111)
      (tlon - maxd / (111 * cosr tlat)) (tlon + maxd / (111 * cosr tlat))
      (allStations cities) none).map _ = _
  rw [radiusFold_eq_foldE, radiusFoldE_eq_nearestFoldE, nearestFoldE_none]
  simp only [radiusCandidates, validEntries]
  cases firstMin (entryD dist tlat tlon)
    ((stationEntries (allStations cities)).filter fun e =>
      decide (inBox (tlat - maxd / 111) (tlat + maxd / 111)
        (tlon - maxd / (111 * cosr tlat)) (tlon + maxd / (111 * cosr tlat)) e ∧
        entryD dist tlat tlon e ≤ maxd)) <;> rfl

end RadiusLemmas

/-! ### Bridging the k-nearest fold to valid entries -/

section KBridge

variable {R : Type} [LinearOrderedField R]
variable (dist : R → R → R → R → R) (tlat tlon : R) (k : ℤ)

theorem kNearestFold_eq_foldE (ss : List (Station R)) (heap : List (HeapEntry R)) :
    kNearestFold dist tlat tlon k ss heap =
      kFoldE dist tlat tlon k (stationEntries ss) heap := by
  induction ss generalizing heap with
  | nil => rfl
  | cons s rest ih =>
    rw [stationEntries_cons]
    cases h : s.parsedCoords with
    | none => simp only [kNearestFold, h, ih, List.nil_append]
    | some c =>
      simp only [kNearestFold, h, List.cons_append, List.nil_append, kFoldE, ih]
      cases heap <;> rfl

/-- The result of `get_k_nearest_stations`, expressed via the fold on
valid entries. -/
theorem get_k_nearest_stations_eq (cities : List (City R)) :
    get_k_nearest_stations dist tlat tlon k cities =
      if cities.isEmpty then .error (.cpcb .noStationsAvailable)
      else
        match kFoldE dist tlat tlon k (validEntries cities) [] with
        | .error _ => .error .indexError
        | .ok heap =>
          .ok (List.insertionSort (fun a b => a.2 ≤ b.2)
            (heap.map fun e => (e.station, e.dist))) := by
  rw [get_k_nearest_stations, kNearestFold_eq_foldE, validEntries_eq]

end KBridge

section FirstMinMem

variable {R : Type} [LinearOrderedField R] {α : Type}

theorem firstMin_mem {f : α → R} {l : List α} {x : α}
    (h : firstMin f l = some x) : x ∈ l := by
  obtain ⟨pre, post, hdec, -, -⟩ := firstMin_spec f l x h
  rw [hdec]
  exact List.mem_append.mpr (Or.inr (List.mem_cons_self x post))

end FirstMinMem

/-! ### Invalid records are invisible to all three searches -/

section InvalidRecords

variable {R : Type}

theorem mem_stationEntries {ss : List (Station R)} {e : Entry R}
    (h : e ∈ stationEntries ss) :
    e.station.parsedCoords = some (e.slat, e.slon) ∧ e.station ∈ ss := by
  rw [stationEntries, List.mem_filterMap] at h
  obtain ⟨s, hs, hf⟩ := h
  cases hc : s.parsedCoords with
  | none => rw [hc] at hf; exact absurd hf (by simp)
  | some c =>
    rw [hc] at hf
    simp only [Option.map_some', Option.some.injEq] at hf
    subst hf
    exact ⟨hc, hs⟩

theorem stationEntries_filter_valid (ss : List (Station R)) :
    stationEntries (ss.filter fun s => s.parsedCoords.isSome) = stationEntries ss := by
  induction ss with
  | nil => rfl
  | cons s rest ih =>
    cases hc : s.parsedCoords with
    | none =>
      rw [List.filter_cons_of_neg (by simp [hc]), ih, stationEntries_cons, hc,
        List.nil_append]
    | some c =>
      rw [List.filter_cons_of_pos (by simp [hc]), stationEntries_cons,
        stationEntries_cons, hc, ih]

theorem allStations_removeInvalid (cities : List (City R)) :
    allStations (removeInvalidStations cities) =
      (allStations cities).filter fun s => s.parsedCoords.isSome := by
  induction cities with
  | nil => rfl
  | cons c rest ih =>
    simp only [removeInvalidStations, allStations, List.map_cons, List.flatMap_cons,
      List.filter_append] at *
    rw [ih]

theorem validEntries_removeInvalid (cities : List (City R)) :
    validEntries (removeInvalidStations cities) = validEntries cities := by
  rw [validEntries_eq, validEntries_eq, allStations_removeInvalid,
    stationEntries_filter_valid]

theorem isEmpty_removeInvalid (cities : List (City R)) :
    (removeInvalidStations cities).isEmpty = cities.isEmpty := by
  cases cities <;> rfl

/-- One step of the k-nearest fold. -/
theorem kFoldE_cons [LinearOrderedField R] (dist : R → R → R → R → R) (tlat tlon : R) (k : ℤ)
    (x : Entry R) (rest : List (Entry R)) (heap : List (HeapEntry R)) :
    kFoldE dist tlat tlon k (x :: rest) heap =
      (if (heap.length : ℤ) < k then
        kFoldE dist tlat tlon k rest
          (heapPush ⟨-entryD dist tlat tlon x, x.station.id,
            entryD dist tlat tlon x, x.station⟩ heap)
      else
        match heap with
        | [] => .error ()
        | top :: restHeap =>
          if entryD dist tlat tlon x < -top.negDist then
            kFoldE dist tlat tlon k rest
              (heapPush ⟨-entryD dist tlat tlon x, x.station.id,
                entryD dist tlat tlon x, x.station⟩ restHeap)
          else
            kFoldE dist tlat tlon k rest (top :: restHeap)) := rfl

/-- Every element retained in the k-nearest heap originates from the
initial heap or from one of the processed valid entries. -/
theorem kFoldE_mem [LinearOrderedField R] (dist : R → R → R → R → R) (tlat tlon : R) (k : ℤ)
    (es : List (Entry R)) (heap heapF : List (HeapEntry R))
    (h : kFoldE dist tlat tlon k es heap = .ok heapF) :
    ∀ e ∈ heapF, e ∈ heap ∨
      ∃ x ∈ es, e = ⟨-entryD dist tlat tlon x, x.station.id, entryD dist tlat tlon x, x.station⟩ := by
  induction es generalizing heap with
  | nil =>
    cases h
    intro e he
    exact Or.inl he
  | cons x rest ih =>
    rw [kFoldE_cons] at h
    by_cases hlen : ((heap.length : ℤ) < k)
    · rw [if_pos hlen] at h
      intro e he
      rcases ih _ h e he with hmem | ⟨y, hy, hey⟩
      · rcases (List.mem_orderedInsert heapLE).mp hmem with hnew | hold
        · exact Or.inr ⟨x, List.mem_cons_self x rest, hnew⟩
        · exact Or.inl hold
      · exact Or.inr ⟨y, List.mem_cons_of_mem x hy, hey⟩
    · rw [if_neg hlen] at h
      cases heap with
      | nil => exact absurd h (by simp)
      | cons top restHeap =>
        dsimp only at h
        by_cases hlt : entryD dist tlat tlon x < -top.negDist
        · rw [if_pos hlt] at h
          intro e he
          rcases ih _ h e he with hmem | ⟨y, hy, hey⟩
          · rcases (List.mem_orderedInsert heapLE).mp hmem with hnew | hold
            · exact Or.inr ⟨x, List.mem_cons_self x rest, hnew⟩
            · exact Or.inl (List.mem_cons_of_mem top hold)
          · exact Or.inr ⟨y, List.mem_cons_of_mem x hy, hey⟩
        · rw [if_neg hlt] at h
          intro e he
          rcases ih _ h e he with hmem | ⟨y, hy, hey⟩
          · exact Or.inl hmem
          · exact Or.inr ⟨y, List.mem_cons_of_mem x hy, hey⟩

end InvalidRecords

/-! ### The k-nearest fold: success, length, and survival of a
minimum-distance entry -/

section KMain

variable {R : Type} [LinearOrderedField R]

instance : IsTotal (Station R × R) (fun a b => a.2 ≤ b.2) :=
  ⟨fun a b => le_total a.2 b.2⟩

instance : IsTrans (Station R × R) (fun a b => a.2 ≤ b.2) :=
  ⟨fun _ _ _ => le_trans⟩

theorem heapPush_length (e : HeapEntry R) (h : List (HeapEntry R)) :
    (heapPush e h).length = h.length + 1 := by
  rw [heapPush, List.orderedInsert_length]

/-- Main invariant of the k-nearest loop, for `1 ≤ k`: the loop never
raises, the heap size ends at `min k (size + #entries)`, every
retained element records a consistent `(negDist, dist)` pair with
distance at least the global minimum `dmin`, and once an entry of
distance `dmin` is present or upcoming, one is retained to the end
(an entry of minimal distance can never be evicted: eviction would
need a strictly smaller distance). -/
theorem kFoldE_main (dist : R → R → R → R → R) (tlat tlon : R) (k : ℤ) (dmin : R)
    (es : List (Entry R)) :
    ∀ (heap : List (HeapEntry R)),
      1 ≤ k →
      (∀ x ∈ es, dmin ≤ entryD dist tlat tlon x) →
      heap.length ≤ k.toNat →
      (∀ e ∈ heap, e.negDist = -e.dist ∧ dmin ≤ e.dist) →
      ((∃ e ∈ heap, e.dist = dmin) ∨ ∃ x ∈ es, entryD dist tlat tlon x = dmin) →
      ∃ hF, kFoldE dist tlat tlon k es heap = .ok hF ∧
        hF.length = min k.toNat (heap.length + es.length) ∧
        (∀ e ∈ hF, e.negDist = -e.dist ∧ dmin ≤ e.dist) ∧
        ∃ e ∈ hF, e.dist = dmin := by
  induction es with
  | nil =>
    intro heap hk hmin hlen hwf hP
    refine ⟨heap, rfl, ?_, hwf, ?_⟩
    · simp only [List.length_nil, Nat.add_zero]
      omega
    · rcases hP with hP | ⟨x, hx, -⟩
      · exact hP
      · exact absurd hx (List.not_mem_nil x)
  | cons x rest ih =>
    intro heap hk hmin hlen hwf hP
    have hdx : dmin ≤ entryD dist tlat tlon x := hmin x (List.mem_cons_self x rest)
    have hminrest : ∀ y ∈ rest, dmin ≤ entryD dist tlat tlon y := fun y hy =>
      hmin y (List.mem_cons_of_mem x hy)
    rw [kFoldE_cons]
    by_cases hlt : ((heap.length : ℤ) < k)
    · rw [if_pos hlt]
      set newE : HeapEntry R := ⟨-entryD dist tlat tlon x, x.station.id,
        entryD dist tlat tlon x, x.station⟩ with hnewE
      have hlen' : (heapPush newE heap).length ≤ k.toNat := by
        rw [heapPush, List.orderedInsert_length]
        omega
      have hwf' : ∀ e ∈ heapPush newE heap, e.negDist = -e.dist ∧ dmin ≤ e.dist := by
        intro e he
        rcases (List.mem_orderedInsert heapLE).mp he with hnew | hold
        · rw [hnew, hnewE]
          exact ⟨rfl, hdx⟩
        · exact hwf e hold
      have hP' : (∃ e ∈ heapPush newE heap, e.dist = dmin) ∨
          ∃ y ∈ rest, entryD dist tlat tlon y = dmin := by
        rcases hP with ⟨e, he, hed⟩ | ⟨y, hy, hyd⟩
        · exact Or.inl ⟨e, (List.mem_orderedInsert heapLE).mpr (Or.inr he), hed⟩
        · rcases List.mem_cons.mp hy with hyx | hyr
          · subst hyx
            exact Or.inl ⟨newE, (List.mem_orderedInsert heapLE).mpr (Or.inl rfl), hyd⟩
          · exact Or.inr ⟨y, hyr, hyd⟩
      obtain ⟨hF, hok, hlenF, hwfF, hPF⟩ := ih _ hk hminrest hlen' hwf' hP'
      refine ⟨hF, hok, ?_, hwfF, hPF⟩
      rw [hlenF, heapPush, List.orderedInsert_length]
      simp only [List.length_cons]
      omega
    · rw [if_neg hlt]
      cases heap with
      | nil =>
        exfalso
        simp only [List.length_nil, Int.ofNat_zero] at hlt
        omega
      | cons top restH =>
        dsimp only
        have htopwf := hwf top (List.mem_cons_self top restH)
        have htopd : -top.negDist = top.dist := by rw [htopwf.1, neg_neg]
        by_cases hrep : entryD dist tlat tlon x < -top.negDist
        · rw [if_pos hrep]
          rw [htopd] at hrep
          set newE : HeapEntry R := ⟨-entryD dist tlat tlon x, x.station.id,
            entryD dist tlat tlon x, x.station⟩ with hnewE
          have hlen' : (heapPush newE restH).length ≤ k.toNat := by
            rw [heapPush, List.orderedInsert_length]
            simp only [List.length_cons] at hlen
            omega
          have hwf' : ∀ e ∈ heapPush newE restH, e.negDist = -e.dist ∧ dmin ≤ e.dist := by
            intro e he
            rcases (List.mem_orderedInsert heapLE).mp he with hnew | hold
            · rw [hnew, hnewE]
              exact ⟨rfl, hdx⟩
            · exact hwf e (List.mem_cons_of_mem top hold)
          have hP' : (∃ e ∈ heapPush newE restH, e.dist = dmin) ∨
              ∃ y ∈ rest, entryD dist tlat tlon y = dmin := by
            rcases hP with ⟨e, he, hed⟩ | ⟨y, hy, hyd⟩
            · rcases List.mem_cons.mp he with hetop | herest
              · exfalso
                rw [hetop] at hed
                rw [hed] at hrep
                exact absurd hdx (not_le.mpr hrep)
              · exact Or.inl ⟨e, (List.mem_orderedInsert heapLE).mpr (Or.inr herest), hed⟩
            · rcases List.mem_cons.mp hy with hyx | hyr
              · subst hyx
                exact Or.inl ⟨newE, (List.mem_orderedInsert heapLE).mpr (Or.inl rfl), hyd⟩
              · exact Or.inr ⟨y, hyr, hyd⟩
          obtain ⟨hF, hok, hlenF, hwfF, hPF⟩ := ih _ hk hminrest hlen' hwf' hP'
          refine ⟨hF, hok, ?_, hwfF, hPF⟩
          rw [hlenF, heapPush_length]
          simp only [List.length_cons] at hlt hlen ⊢
          omega
        · rw [if_neg hrep]
          rw [htopd] at hrep
          have hP' : (∃ e ∈ top :: restH, e.dist = dmin) ∨
              ∃ y ∈ rest, entryD dist tlat tlon y = dmin := by
            rcases hP with hP | ⟨y, hy, hyd⟩
            · exact Or.inl hP
            · rcases List.mem_cons.mp hy with hyx | hyr
              · subst hyx
                refine Or.inl ⟨top, List.mem_cons_self top restH, ?_⟩
                have h1 : top.dist ≤ entryD dist tlat tlon y := not_lt.mp hrep
                have h2 : dmin ≤ top.dist := htopwf.2
                rw [hyd] at h1
                exact le_antisymm h1 h2
              · exact Or.inr ⟨y, hyr, hyd⟩
          obtain ⟨hF, hok, hlenF, hwfF, hPF⟩ := ih _ hk hminrest hlen hwf hP'
          refine ⟨hF, hok, ?_, hwfF, hPF⟩
          rw [hlenF]
          simp only [List.length_cons] at hlt hlen ⊢
          omega

end KMain

/-! ### Facts about the haversine radicand -/

section HaversineFacts

theorem sin_half_sq (x : ℝ) : Real.sin (x / 2) ^ 2 = (1 - Real.cos x) / 2 := by
  have h := Real.sin_sq_eq_half_sub (x / 2)
  rw [show 2 * (x / 2) = x by ring] at h
  linarith

/-- The haversine radicand, rewritten via the spherical law of
cosines. -/
theorem haversine_radicand_eq (u v w : ℝ) :
    Real.sin ((v - u) / 2) ^ 2 + Real.cos u * Real.cos v * Real.sin (w / 2) ^ 2 =
      (1 - (Real.sin u * Real.sin v + Real.cos u * Real.cos v * Real.cos w)) / 2 := by
  rw [sin_half_sq, sin_half_sq, Real.cos_sub]
  ring

theorem inner_product_bound (u v w : ℝ) :
    -1 ≤ Real.sin u * Real.sin v + Real.cos u * Real.cos v * Real.cos w ∧
      Real.sin u * Real.sin v + Real.cos u * Real.cos v * Real.cos w ≤ 1 := by
  have hu := Real.sin_sq_add_cos_sq u
  have hv := Real.sin_sq_add_cos_sq v
  have hw1 := Real.neg_one_le_cos w
  have hw2 := Real.cos_le_one w
  have h1 : 0 ≤ 1 - Real.sin u * Real.sin v - Real.cos u * Real.cos v := by
    nlinarith [sq_nonneg (Real.sin u - Real.sin v), sq_nonneg (Real.cos u - Real.cos v)]
  have h2 : 0 ≤ 1 - Real.sin u * Real.sin v + Real.cos u * Real.cos v := by
    nlinarith [sq_nonneg (Real.sin u - Real.sin v), sq_nonneg (Real.cos u + Real.cos v)]
  have h3 : 0 ≤ 1 + Real.sin u * Real.sin v + Real.cos u * Real.cos v := by
    nlinarith [sq_nonneg (Real.sin u + Real.sin v), sq_nonneg (Real.cos u + Real.cos v)]
  have h4 : 0 ≤ 1 + Real.sin u * Real.sin v - Real.cos u * Real.cos v := by
    nlinarith [sq_nonneg (Real.sin u + Real.sin v), sq_nonneg (Real.cos u - Real.cos v)]
  constructor
  · nlinarith [mul_nonneg (by linarith : (0:ℝ) ≤ 1 + Real.cos w) h3,
      mul_nonneg (by linarith : (0:ℝ) ≤ 1 - Real.cos w) h4]
  · nlinarith [mul_nonneg (by linarith : (0:ℝ) ≤ 1 + Real.cos w) h1,
      mul_nonneg (by linarith : (0:ℝ) ≤ 1 - Real.cos w) h2]

theorem haversine_distance_self (lat lon : ℝ) :
    haversine_distance lat lon lat lon = 0 := by
  simp [haversine_distance]

theorem haversine_distance_nonneg (lat1 lon1 lat2 lon2 : ℝ) :
    0 ≤ haversine_distance lat1 lon1 lat2 lon2 := by
  simp only [haversine_distance]
  have harc : 0 ≤ Real.arcsin (Real.sqrt
      (Real.sin ((radians lat2 - radians lat1) / 2) ^ 2 +
        Real.cos (radians lat1) * Real.cos (radians lat2) *
          Real.sin ((radians lon2 - radians lon1) / 2) ^ 2)) :=
    Real.arcsin_nonneg.mpr (Real.sqrt_nonneg _)
  nlinarith [harc]

theorem string_A_le_B : ("A" : String) ≤ "B" := by
  rw [String.le_iff_toList_le]
  decide

theorem cosDeg_eighty : cosDeg 80 = Real.sin (Real.pi / 18) := by
  show Real.cos (radians 80) = _
  rw [radians, show (80:ℝ) * Real.pi / 180 = Real.pi / 2 - Real.pi / 18 by ring,
    Real.cos_pi_div_two_sub]

theorem sin_pi_div_eighteen_pos : 0 < Real.sin (Real.pi / 18) :=
  Real.sin_pos_of_pos_of_lt_pi (by linarith [Real.pi_pos]) (by linarith [Real.pi_pos])

end HaversineFacts

/-! ### Claims -/

/-- `get_nearest_station` returns (when it returns at all) a station
with valid numeric coordinates whose distance to the query point is
minimal, the first such in the flattened iteration order; generic in
the distance function. -/
theorem nearest_station_is_first_minimum {R : Type} [LinearOrderedField R]
    (dist : R → R → R → R → R) (lat lon : R) (cities : List (City R))
    (sid : String) (d : R)
    (h : get_nearest_station dist lat lon cities = .ok (sid, d)) :
    ∃ pre e post, validEntries cities = pre ++ e :: post ∧
      e.station.id = sid ∧ entryD dist lat lon e = d ∧
      (∀ x ∈ pre, entryD dist lat lon e < entryD dist lat lon x) ∧
      ∀ x ∈ validEntries cities, entryD dist lat lon e ≤ entryD dist lat lon x := by
  rw [get_nearest_station_eq] at h
  by_cases hc : cities.isEmpty
  · rw [if_pos hc] at h
    exact absurd h (by simp)
  · rw [if_neg hc] at h
    cases hm : firstMin (entryD dist lat lon) (validEntries cities) with
    | none =>
      rw [hm] at h
      exact absurd h (by simp)
    | some e =>
      rw [hm] at h
      simp only [Except.ok.injEq, Prod.mk.injEq] at h
      obtain ⟨pre, post, hdec, hpre, hall⟩ := firstMin_spec _ _ _ hm
      exact ⟨pre, e, post, hdec, h.1, h.2, hpre, hall⟩

/-- **C1.** For every station list and query point,
`get_nearest_station` (whenever it returns rather than raising)
returns a station with valid numeric coordinates whose haversine
distance to the query point is ≤ the haversine distance of every other
valid station in the list, and when several valid stations attain that
minimum exactly, the first one in the flattened city-then-station
iteration order is returned (every valid station strictly before the
returned one is strictly farther). -/
theorem nearest_station_haversine_first_minimum (lat lon : ℝ)
    (cities : List (City ℝ)) (sid : String) (d : ℝ)
    (h : get_nearest_station haversine_distance lat lon cities = .ok (sid, d)) :
    ∃ pre e post, validEntries cities = pre ++ e :: post ∧
      e.station.id = sid ∧ entryD haversine_distance lat lon e = d ∧
      (∀ x ∈ pre, entryD haversine_distance lat lon e <
        entryD haversine_distance lat lon x) ∧
      ∀ x ∈ validEntries cities, entryD haversine_distance lat lon e ≤
        entryD haversine_distance lat lon x :=
  nearest_station_is_first_minimum haversine_distance lat lon cities sid d h

/-- Witness for C1 at a concrete input: the single-station city list
`exCityPolar` (the fold takes its only valid station, with no real
comparison needed, so the hypothesis is discharged by `rfl`). -/
theorem nearest_station_haversine_first_minimum_witness :
    ∃ pre e post, validEntries exCityPolar = pre ++ e :: post ∧
      e.station.id = "S" ∧
      entryD haversine_distance 0 0 e = haversine_distance 0 0 80 180 ∧
      (∀ x ∈ pre, entryD haversine_distance 0 0 e <
        entryD haversine_distance 0 0 x) ∧
      ∀ x ∈ validEntries exCityPolar, entryD haversine_distance 0 0 e ≤
        entryD haversine_distance 0 0 x :=
  nearest_station_haversine_first_minimum 0 0 exCityPolar "S"
    (haversine_distance 0 0 80 180) rfl

/-- **C4** (code bug).  The spec requires `get_k_nearest_stations` to
return an empty sequence for `k ≤ 0`; the code instead evaluates
`heap[0]` on the empty heap as soon as the first valid station is
reached (`0 < k` fails and the heap is empty), raising an uncaught
`IndexError` (the `except` clause only catches `ValueError`,
`KeyError`, `TypeError`), contradicting the function's own
documentation that it returns a list and raises only `CPCBError`. -/
theorem k_nonpositive_raises_index_error :
    get_k_nearest_stations haversine_distance 0 0 0 exCityPolar =
      .error .indexError ∧
    get_k_nearest_stations haversine_distance 0 0 (-3) exCityPolar =
      .error .indexError :=
  ⟨rfl, rfl⟩

/-- Empty-input behaviour of the two searches, generic in the distance
function: `get_nearest_station` raises in both empty cases, while
`get_k_nearest_stations` raises only for the empty city list. -/
theorem empty_input_reporting {R : Type} [LinearOrderedField R]
    (dist : R → R → R → R → R) (lat lon : R) (k : ℤ) (cities : List (City R))
    (h : validEntries cities = []) :
    get_nearest_station dist lat lon cities =
      .error (if cities.isEmpty then .noStationsAvailable else .noValidStations) ∧
    get_k_nearest_stations dist lat lon k cities =
      (if cities.isEmpty then .error (.cpcb .noStationsAvailable) else .ok []) := by
  constructor
  · rw [get_nearest_station_eq, h]
    by_cases hc : cities.isEmpty
    · rw [if_pos hc, if_pos hc]
    · rw [if_neg hc, if_neg hc]
      rfl
  · rw [get_k_nearest_stations_eq, h]
    by_cases hc : cities.isEmpty
    · rw [if_pos hc, if_pos hc]
    · rw [if_neg hc, if_neg hc]
      rfl

/-- **C5** (amended).  On a station list that is empty or has no valid
station, `get_nearest_station` raises `CPCBError` in both cases
("No stations available" for the empty list, "No valid stations
found" otherwise) — a failure distinct from the bounded-radius
search's normal `none` outcome; `get_k_nearest_stations`, however,
raises `CPCBError` only for the empty city list, and returns the
empty list (a normal result, not an error) when stations exist but
none has valid coordinates. -/
theorem empty_input_reporting_haversine (lat lon : ℝ) (k : ℤ)
    (cities : List (City ℝ)) (h : validEntries cities = []) :
    get_nearest_station haversine_distance lat lon cities =
      .error (if cities.isEmpty then .noStationsAvailable else .noValidStations) ∧
    get_k_nearest_stations haversine_distance lat lon k cities =
      (if cities.isEmpty then .error (.cpcb .noStationsAvailable) else .ok []) :=
  empty_input_reporting haversine_distance lat lon k cities h

/-- Witness for C5 (amended) at a concrete input: one city whose only
station has an unparseable latitude. -/
theorem empty_input_reporting_haversine_witness :
    get_nearest_station haversine_distance 0 0 exCitiesInvalidR =
      .error (if exCitiesInvalidR.isEmpty then .noStationsAvailable
        else .noValidStations) ∧
    get_k_nearest_stations haversine_distance 0 0 5 exCitiesInvalidR =
      (if exCitiesInvalidR.isEmpty then .error (.cpcb .noStationsAvailable)
        else .ok []) :=
  empty_input_reporting_haversine 0 0 5 exCitiesInvalidR rfl

/-- Counterexample to **C5** as stated: with a nonempty city list whose
only station has invalid coordinates, `get_k_nearest_stations` does
not raise `CPCBError`; it returns the empty list as a normal result. -/
theorem k_nearest_no_valid_returns_empty :
    get_k_nearest_stations haversine_distance 0 0 5 exCitiesInvalidR = .ok [] ∧
    exCitiesInvalidR ≠ [] :=
  ⟨rfl, List.cons_ne_nil _ _⟩

/-- Completeness of the bounded-radius search relative to its own
filter, generic in the distance function: whenever some valid station
passes the bounding box and lies within `maxd`, the closest such
station is returned. -/
theorem within_radius_complete_on_candidates {R : Type} [LinearOrderedField R]
    (dist : R → R → R → R → R) (cosr : R → R) (lat lon maxd : R)
    (cities : List (City R))
    (h : radiusCandidates dist cosr lat lon maxd cities ≠ []) :
    ∃ e ∈ radiusCandidates dist cosr lat lon maxd cities,
      get_nearest_station_within_radius dist cosr lat lon maxd cities =
        some (e.station.id, entryD dist lat lon e) ∧
      ∀ x ∈ radiusCandidates dist cosr lat lon maxd cities,
        entryD dist lat lon e ≤ entryD dist lat lon x := by
  cases hm : firstMin (entryD dist lat lon)
      (radiusCandidates dist cosr lat lon maxd cities) with
  | none => exact absurd ((firstMin_eq_none_iff _ _).mp hm) h
  | some e =>
    obtain ⟨pre, post, hdec, -, hall⟩ := firstMin_spec _ _ _ hm
    refine ⟨e, firstMin_mem hm, ?_, hall⟩
    rw [get_within_radius_eq, hm]
    rfl

/-- **C2** (amended).  The bounding-box pre-filter can reject stations
whose exact haversine distance to the query point is at most the
radius (see the counterexample below), so the pre-filter is not a pure
optimization and completeness only holds relative to the filter:
whenever at least one valid station both passes the bounding box and
lies within haversine distance `maxd`, the search returns the closest
such station (the first in iteration order on ties). -/
theorem within_radius_haversine_complete_on_candidates (lat lon maxd : ℝ)
    (cities : List (City ℝ))
    (h : radiusCandidates haversine_distance cosDeg lat lon maxd cities ≠ []) :
    ∃ e ∈ radiusCandidates haversine_distance cosDeg lat lon maxd cities,
      get_nearest_station_within_radius haversine_distance cosDeg lat lon maxd
          cities =
        some (e.station.id, entryD haversine_distance lat lon e) ∧
      ∀ x ∈ radiusCandidates haversine_distance cosDeg lat lon maxd cities,
        entryD haversine_distance lat lon e ≤ entryD haversine_distance lat lon x :=
  within_radius_complete_on_candidates haversine_distance cosDeg lat lon maxd
    cities h

/-- Witness for C2 (amended) at a concrete input: the query point
sits exactly on the station (80°N, 180°E), which therefore passes the
bounding box (distance 0 ≤ 100 km). -/
theorem within_radius_haversine_complete_on_candidates_witness :
    ∃ e ∈ radiusCandidates haversine_distance cosDeg 80 180 100 exCityPolar,
      get_nearest_station_within_radius haversine_distance cosDeg 80 180 100
          exCityPolar =
        some (e.station.id, entryD haversine_distance 80 180 e) ∧
      ∀ x ∈ radiusCandidates haversine_distance cosDeg 80 180 100 exCityPolar,
        entryD haversine_distance 80 180 e ≤ entryD haversine_distance 80 180 x :=
  within_radius_haversine_complete_on_candidates 80 180 100 exCityPolar (by
    have hcos : (0:ℝ) < cosDeg 80 := by
      rw [cosDeg_eighty]
      exact sin_pi_div_eighteen_pos
    have hLpos : (0:ℝ) ≤ 100 / (111 * cosDeg 80) :=
      le_of_lt (div_pos (by norm_num) (mul_pos (by norm_num) hcos))
    have hd0 : entryD haversine_distance 80 180
        (⟨⟨"S", some 80, some 180⟩, 80, 180⟩ : Entry ℝ) = 0 :=
      haversine_distance_self 80 180
    have hc : radiusCandidates haversine_distance cosDeg 80 180 100 exCityPolar =
        [⟨⟨"S", some 80, some 180⟩, 80, 180⟩] := by
      rw [radiusCandidates,
        show validEntries exCityPolar = [⟨⟨"S", some 80, some 180⟩, 80, 180⟩] from rfl,
        List.filter_cons_of_pos]
      · rfl
      · simp only [decide_eq_true_eq]
        refine ⟨⟨by norm_num, by norm_num, by linarith, by linarith⟩, ?_⟩
        rw [hd0]
        norm_num
    rw [hc]
    exact List.cons_ne_nil _ _)

/-- Invalid records are invisible to all three search operations,
generically in the distance function: removing them changes no
result, and every station in a successful k-nearest output has
validly parsed coordinates. -/
theorem invalid_records_excluded {R : Type} [LinearOrderedField R]
    (dist : R → R → R → R → R) (cosr : R → R) (lat lon maxd : R) (k : ℤ)
    (cities : List (City R)) :
    get_nearest_station dist lat lon (removeInvalidStations cities) =
      get_nearest_station dist lat lon cities ∧
    get_k_nearest_stations dist lat lon k (removeInvalidStations cities) =
      get_k_nearest_stations dist lat lon k cities ∧
    get_nearest_station_within_radius dist cosr lat lon maxd (removeInvalidStations cities) =
      get_nearest_station_within_radius dist cosr lat lon maxd cities ∧
    ∀ out, get_k_nearest_stations dist lat lon k cities = .ok out →
      ∀ p ∈ out, p.1.parsedCoords.isSome := by
  refine ⟨?_, ?_, ?_, ?_⟩
  · rw [get_nearest_station_eq, get_nearest_station_eq, validEntries_removeInvalid,
      isEmpty_removeInvalid]
  · rw [get_k_nearest_stations_eq, get_k_nearest_stations_eq, validEntries_removeInvalid,
      isEmpty_removeInvalid]
  · rw [get_within_radius_eq, get_within_radius_eq]
    simp only [radiusCandidates, validEntries_removeInvalid]
  · intro out hout p hp
    rw [get_k_nearest_stations_eq] at hout
    by_cases hc : cities.isEmpty
    · rw [if_pos hc] at hout
      exact absurd hout (by simp)
    · rw [if_neg hc] at hout
      cases hk : kFoldE dist lat lon k (validEntries cities) [] with
      | error u => rw [hk] at hout; exact absurd hout (by simp)
      | ok heap =>
        rw [hk] at hout
        simp only [Except.ok.injEq] at hout
        subst hout
        have hp2 : p ∈ heap.map fun e => (e.station, e.dist) :=
          (List.perm_insertionSort (fun a b => a.2 ≤ b.2) _).mem_iff.mp hp
        rw [List.mem_map] at hp2
        obtain ⟨e, he, hpe⟩ := hp2
        rcases kFoldE_mem dist lat lon k _ _ _ hk e he with hnil | ⟨x, hx, hex⟩
        · exact absurd hnil (List.not_mem_nil e)
        · have hv := (mem_stationEntries (by rw [validEntries_eq] at hx; exact hx)).1
          rw [← hpe, hex]
          simp [hv]

/-- **C7.** Station records whose latitude or longitude is missing,
empty-string or non-numeric (modelled as `parsedCoords = none`, where
the source's `float(...)` raises and is caught) never cause any of the
three search operations to raise because of them, and are excluded
from consideration by all three: removing them changes no result (so
the error behaviour with them present is exactly the error behaviour
without them), such a record is never returned as a result (C1/C6
show every result comes from the valid entries), and every station in
a successful k-nearest output has validly parsed coordinates. -/
theorem invalid_records_excluded_haversine (lat lon maxd : ℝ) (k : ℤ)
    (cities : List (City ℝ)) :
    get_nearest_station haversine_distance lat lon (removeInvalidStations cities) =
      get_nearest_station haversine_distance lat lon cities ∧
    get_k_nearest_stations haversine_distance lat lon k (removeInvalidStations cities) =
      get_k_nearest_stations haversine_distance lat lon k cities ∧
    get_nearest_station_within_radius haversine_distance cosDeg lat lon maxd
        (removeInvalidStations cities) =
      get_nearest_station_within_radius haversine_distance cosDeg lat lon maxd
        cities ∧
    ∀ out, get_k_nearest_stations haversine_distance lat lon k cities = .ok out →
      ∀ p ∈ out, p.1.parsedCoords.isSome :=
  invalid_records_excluded haversine_distance cosDeg lat lon maxd k cities

/-- On an empty or all-invalid station list, the bounded-radius search
returns `none`, generically in the distance function. -/
theorem within_radius_empty_input_is_none {R : Type} [LinearOrderedField R]
    (dist : R → R → R → R → R) (cosr : R → R) (lat lon maxd : R)
    (cities : List (City R)) (h : validEntries cities = []) :
    get_nearest_station_within_radius dist cosr lat lon maxd cities = none := by
  rw [get_within_radius_eq]
  simp [radiusCandidates, h]

/-- **C10.** Whenever the station list is empty or has no validly
parsed station, `get_nearest_station_within_radius` returns `none` —
the same value as its normal not-found outcome, so at this interface
an empty input is indistinguishable from a not-found result, and no
EmptyInput error is raised (the return type has no error case: the
source raises nothing after the fetch). -/
theorem within_radius_haversine_empty_input (lat lon maxd : ℝ)
    (cities : List (City ℝ)) (h : validEntries cities = []) :
    get_nearest_station_within_radius haversine_distance cosDeg lat lon maxd
      cities = none :=
  within_radius_empty_input_is_none haversine_distance cosDeg lat lon maxd cities h

/-- Witness for C10 at a concrete input. -/
theorem within_radius_haversine_empty_input_witness :
    get_nearest_station_within_radius haversine_distance cosDeg 0 0 100
      exCitiesInvalidR = none :=
  within_radius_haversine_empty_input 0 0 100 exCitiesInvalidR rfl

/-- Soundness of the bounded-radius search, generic in the distance
function: any returned station lies within the radius, and when no
valid station does, the result is the not-found value `none`. -/
theorem within_radius_bounds {R : Type} [LinearOrderedField R]
    (dist : R → R → R → R → R) (cosr : R → R) (lat lon maxd : R)
    (cities : List (City R)) :
    (∀ sid d,
      get_nearest_station_within_radius dist cosr lat lon maxd cities = some (sid, d) →
        d ≤ maxd) ∧
    ((∀ e ∈ validEntries cities, maxd < entryD dist lat lon e) →
      get_nearest_station_within_radius dist cosr lat lon maxd cities = none) := by
  constructor
  · intro sid d h
    rw [get_within_radius_eq] at h
    cases hm : firstMin (entryD dist lat lon)
        (radiusCandidates dist cosr lat lon maxd cities) with
    | none => rw [hm] at h; exact absurd h (by simp)
    | some e =>
      rw [hm] at h
      simp only [Option.map_some', Option.some.injEq, Prod.mk.injEq] at h
      have hmem : e ∈ radiusCandidates dist cosr lat lon maxd cities := firstMin_mem hm
      have : entryD dist lat lon e ≤ maxd := by
        have := List.of_mem_filter hmem
        simp only [decide_eq_true_eq] at this
        exact this.2
      rw [← h.2]
      exact this
  · intro hall
    rw [get_within_radius_eq]
    have hnil : radiusCandidates dist cosr lat lon maxd cities = [] := by
      rw [radiusCandidates]
      rw [List.filter_eq_nil_iff]
      intro e he
      simp only [decide_eq_true_eq, not_and]
      intro _
      exact not_le.mpr (hall e he)
    rw [hnil]
    rfl

/-- **C6.** `get_nearest_station_within_radius` never returns a
station whose haversine distance to the query point exceeds the radius
`maxd`, and when no valid station lies within `maxd` it returns the
not-found value `none` as a normal outcome rather than raising an
error (its return type has no error case). -/
theorem within_radius_haversine_bounds (lat lon maxd : ℝ)
    (cities : List (City ℝ)) :
    (∀ sid d,
      get_nearest_station_within_radius haversine_distance cosDeg lat lon maxd
          cities = some (sid, d) → d ≤ maxd) ∧
    ((∀ e ∈ validEntries cities, maxd < entryD haversine_distance lat lon e) →
      get_nearest_station_within_radius haversine_distance cosDeg lat lon maxd
        cities = none) :=
  within_radius_bounds haversine_distance cosDeg lat lon maxd cities

/-- Witness for C6 at a concrete input: a negative radius, which every
haversine distance (being non-negative) exceeds, so the search reports
not-found. -/
theorem within_radius_haversine_bounds_witness :
    get_nearest_station_within_radius haversine_distance cosDeg 0 0 (-1)
      exCityPolar = none :=
  (within_radius_haversine_bounds 0 0 (-1) exCityPolar).2 (by
    intro e he
    have he1 : e ∈ [(⟨⟨"S", some 80, some 180⟩, 80, 180⟩ : Entry ℝ)] := he
    rw [List.mem_singleton] at he1
    subst he1
    have h0 : (0:ℝ) ≤ entryD haversine_distance 0 0
        (⟨⟨"S", some 80, some 180⟩, 80, 180⟩ : Entry ℝ) :=
      haversine_distance_nonneg 0 0 80 180
    linarith)

/-- Counterexample to **C2** as stated: the bounding-box pre-filter
does reject a station whose exact haversine distance is within the
radius.  The station (80°N, 180°E) is `6371·π/9 ≈ 2223 km < 2500 km`
from the query point (80°N, 0°E) — the great circle runs over the pole
— but its longitude offset of 180° exceeds the box half-width
`2500/(111·cos 80°) ≈ 129.7°`, so the search returns `none` even
though a valid station lies within the radius. -/
theorem bounding_box_rejects_station_within_radius :
    haversine_distance 80 0 80 180 ≤ 2500 ∧
    (Station.parsedCoords (⟨"S", some 80, some 180⟩ : Station ℝ)).isSome ∧
    get_nearest_station_within_radius haversine_distance cosDeg 80 0 2500 exCityPolar =
      none := by
  have hpi4l := Real.pi_gt_d4
  have hpi4u := Real.pi_lt_d4
  have hpi0 := Real.pi_pos
  have hcos80 : cosDeg 80 = Real.sin (Real.pi / 18) := by
    show Real.cos (radians 80) = _
    rw [radians, show (80:ℝ) * Real.pi / 180 = Real.pi / 2 - Real.pi / 18 by ring,
      Real.cos_pi_div_two_sub]
  have hsin_pos : 0 < Real.sin (Real.pi / 18) :=
    Real.sin_pos_of_pos_of_lt_pi (by linarith) (by linarith)
  have hsin_lb : (2500:ℝ) / 19980 < Real.sin (Real.pi / 18) := by
    have hx1 : (0:ℝ) < Real.pi / 18 := by linarith
    have hx2 : Real.pi / 18 ≤ 1 := by linarith
    have h := Real.sin_gt_sub_cube hx1 hx2
    have hcube : (Real.pi / 18) ^ 3 ≤ (3.1416 / 18) ^ 3 := by
      apply pow_le_pow_left₀ (by positivity) (by linarith)
    nlinarith [h, hcube]
  have hdist : haversine_distance 80 0 80 180 = 2 * (Real.pi / 18) * 6371 := by
    simp only [haversine_distance, radians]
    rw [show ((80:ℝ) * Real.pi / 180 - 80 * Real.pi / 180) / 2 = 0 by ring,
      show ((180:ℝ) * Real.pi / 180 - 0 * Real.pi / 180) / 2 = Real.pi / 2 by ring,
      Real.sin_zero, Real.sin_pi_div_two,
      show (0:ℝ) ^ 2 + Real.cos (80 * Real.pi / 180) * Real.cos (80 * Real.pi / 180) * 1 ^ 2 =
        Real.cos (80 * Real.pi / 180) ^ 2 by ring,
      show (80:ℝ) * Real.pi / 180 = Real.pi / 2 - Real.pi / 18 by ring,
      Real.cos_pi_div_two_sub, Real.sqrt_sq (le_of_lt hsin_pos),
      Real.arcsin_sin (by linarith) (by linarith)]
  have hboxfail : ¬ ((180:ℝ) ≤ 0 + 2500 / (111 * cosDeg 80)) := by
    rw [hcos80]
    intro hc
    have hpos : (0:ℝ) < 111 * Real.sin (Real.pi / 18) := by positivity
    have h2 := (le_div_iff₀ hpos).mp (by linarith : (180:ℝ) ≤
      2500 / (111 * Real.sin (Real.pi / 18)))
    nlinarith [h2, hsin_lb]
  have hcand : radiusCandidates haversine_distance cosDeg 80 0 2500 exCityPolar = [] := by
    have hval : validEntries exCityPolar =
        [⟨⟨"S", some 80, some 180⟩, 80, 180⟩] := rfl
    rw [radiusCandidates, hval, List.filter_cons_of_neg]
    · rfl
    · simp only [decide_eq_true_eq, not_and]
      intro hibox
      exact absurd hibox.2.2.2 hboxfail
  refine ⟨?_, rfl, ?_⟩
  · rw [hdist]
    nlinarith
  · rw [get_within_radius_eq, hcand]
    rfl

/-- Generic k-nearest output contract: non-decreasing by distance,
length `min k (#valid)`, and the head attains the minimum distance
(equal to `get_nearest_station`'s returned distance); when all
minimum-distance stations share the nearest id, the head carries that
id. -/
theorem k_nearest_sorted_length_head {R : Type} [LinearOrderedField R]
    (dist : R → R → R → R → R) (lat lon : R) (k : ℤ) (cities : List (City R))
    (out : List (Station R × R)) (hk : 1 ≤ k)
    (h : get_k_nearest_stations dist lat lon k cities = .ok out) :
    out.Sorted (fun a b => a.2 ≤ b.2) ∧
    out.length = min k.toNat (validEntries cities).length ∧
    ∀ p rest, out = p :: rest →
      ∃ sid, get_nearest_station dist lat lon cities = .ok (sid, p.2) ∧
        ((∀ x ∈ validEntries cities, entryD dist lat lon x = p.2 →
            x.station.id = sid) → p.1.id = sid) := by
  rw [get_k_nearest_stations_eq] at h
  by_cases hc : cities.isEmpty
  · rw [if_pos hc] at h
    exact absurd h (by simp)
  rw [if_neg hc] at h
  cases hm : firstMin (entryD dist lat lon) (validEntries cities) with
  | none =>
    have hve : validEntries cities = [] := (firstMin_eq_none_iff _ _).mp hm
    rw [hve] at h
    have hout : out = [] := by
      dsimp only [kFoldE] at h
      simpa using h.symm
    subst hout
    refine ⟨List.sorted_nil, by simp [hve], ?_⟩
    intro p rest hpr
    exact List.noConfusion hpr
  | some m =>
    obtain ⟨pre, post, hdec, hpre, hall⟩ := firstMin_spec _ _ _ hm
    have hmmem : m ∈ validEntries cities := firstMin_mem hm
    obtain ⟨hF, hok, hlenF, hwfF, emin, heminmem, heminD⟩ :=
      kFoldE_main dist lat lon k (entryD dist lat lon m) (validEntries cities) []
        hk hall (by simp) (by simp) (Or.inr ⟨m, hmmem, rfl⟩)
    rw [hok] at h
    dsimp only at h
    simp only [Except.ok.injEq] at h
    subst h
    refine ⟨List.sorted_insertionSort _ _, ?_, ?_⟩
    · rw [(List.perm_insertionSort (fun a b : Station R × R => a.2 ≤ b.2)
          (hF.map fun e => (e.station, e.dist))).length_eq,
        List.length_map, hlenF]
      simp
    · intro p rest hpr
      have hpmem : p ∈ hF.map fun e => (e.station, e.dist) := by
        refine (List.perm_insertionSort (fun a b : Station R × R => a.2 ≤ b.2)
          (hF.map fun e => (e.station, e.dist))).mem_iff.mp ?_
        rw [hpr]
        exact List.mem_cons_self p rest
      obtain ⟨e, he, hpe⟩ := List.mem_map.mp hpmem
      have hminpair : ((emin.station, emin.dist) : Station R × R) ∈
          List.insertionSort (fun a b => a.2 ≤ b.2)
            (hF.map fun e => (e.station, e.dist)) := by
        refine (List.perm_insertionSort (fun a b : Station R × R => a.2 ≤ b.2)
          (hF.map fun e => (e.station, e.dist))).mem_iff.mpr ?_
        exact List.mem_map.mpr ⟨emin, heminmem, rfl⟩
      have hp2 : p.2 = entryD dist lat lon m := by
        have hge : entryD dist lat lon m ≤ p.2 := by
          rw [← hpe]
          exact (hwfF e he).2
        have hle : p.2 ≤ entryD dist lat lon m := by
          rw [hpr] at hminpair
          rcases List.mem_cons.mp hminpair with hhd | htl
          · have hpd : p.2 = emin.dist := by rw [← hhd]
            exact le_of_eq (hpd.trans heminD)
          · have hs := List.sorted_insertionSort (fun a b : Station R × R => a.2 ≤ b.2)
              (hF.map fun e => (e.station, e.dist))
            rw [hpr] at hs
            have hrel := List.rel_of_sorted_cons hs _ htl
            exact le_trans hrel (le_of_eq heminD)
        exact le_antisymm hle hge
      refine ⟨m.station.id, ?_, ?_⟩
      · rw [get_nearest_station_eq, if_neg hc, hm, hp2]
      · intro huniq
        rcases kFoldE_mem dist lat lon k _ _ _ hok e he with hnil | ⟨x, hx, hex⟩
        · exact absurd hnil (List.not_mem_nil e)
        · have hestation : e.station = x.station := by rw [hex]
          have hedist : e.dist = entryD dist lat lon x := by rw [hex]
          have hxd : entryD dist lat lon x = p.2 := by
            rw [← hedist, ← hpe]
          have hid := huniq x hx hxd
          rw [← hpe]
          show e.station.id = m.station.id
          rw [hestation]
          exact hid

/-- **C3** (amended).  For `k ≥ 1`, whenever `get_k_nearest_stations`
returns a list (rather than raising), that list of (station, distance)
pairs is sorted in non-decreasing — not strictly ascending, see the
tie counterexample — order of haversine distance, its length is
`min k (#stations with valid coordinates)`, and its first element
attains the minimum haversine distance over all valid stations:
`get_nearest_station` returns exactly that distance, and whenever all
valid stations at the minimum distance share the nearest station's id
(in particular when the minimum is uniquely attained) the first
element is the same station `get_nearest_station` returns.  Under an
exact tie the first element can be a different equal-distance station
(see the counterexample). -/
theorem k_nearest_haversine_sorted_length_head (lat lon : ℝ) (k : ℤ)
    (cities : List (City ℝ)) (out : List (Station ℝ × ℝ)) (hk : 1 ≤ k)
    (h : get_k_nearest_stations haversine_distance lat lon k cities = .ok out) :
    out.Sorted (fun a b => a.2 ≤ b.2) ∧
    out.length = min k.toNat (validEntries cities).length ∧
    ∀ p rest, out = p :: rest →
      ∃ sid, get_nearest_station haversine_distance lat lon cities = .ok (sid, p.2) ∧
        ((∀ x ∈ validEntries cities, entryD haversine_distance lat lon x = p.2 →
            x.station.id = sid) → p.1.id = sid) :=
  k_nearest_sorted_length_head haversine_distance lat lon k cities out hk h

/-- Witness for C3 (amended) at a concrete input: one valid station,
`k = 1` (the fold only pushes, so the hypothesis is discharged by
`rfl`). -/
theorem k_nearest_haversine_sorted_length_head_witness :
    (List.Sorted (fun a b : Station ℝ × ℝ => a.2 ≤ b.2)
      [(⟨"S", some 80, some 180⟩, haversine_distance 0 0 80 180)]) ∧
    ([((⟨"S", some 80, some 180⟩ : Station ℝ), haversine_distance 0 0 80 180)].length =
      min (1:ℤ).toNat (validEntries exCityPolar).length) ∧
    ∀ p rest,
      [((⟨"S", some 80, some 180⟩ : Station ℝ), haversine_distance 0 0 80 180)] =
        p :: rest →
      ∃ sid, get_nearest_station haversine_distance 0 0 exCityPolar =
          .ok (sid, p.2) ∧
        ((∀ x ∈ validEntries exCityPolar,
            entryD haversine_distance 0 0 x = p.2 → x.station.id = sid) →
          p.1.id = sid) :=
  k_nearest_haversine_sorted_length_head 0 0 1 exCityPolar
    [((⟨"S", some 80, some 180⟩ : Station ℝ), haversine_distance 0 0 80 180)]
    (by norm_num) rfl

/-- Counterexample to **C3** as stated: with two distinct stations at
the same coordinates ("B" first in iteration order) every haversine
distance is exactly tied; the output of `get_k_nearest_stations` is
not strictly ascending (the two distances are equal), and its first
element is station "A" — not station "B", which is what
`get_nearest_station` returns.  (The heap entries are ordered by the
Python tuple `(-distance, station["id"])`, so the tie is broken by id,
while the linear search keeps the first station encountered.) -/
theorem k_nearest_haversine_tie_counterexample :
    get_k_nearest_stations haversine_distance 0 0 2 exCitiesTieR =
      .ok [(⟨"A", some 80, some 180⟩, haversine_distance 0 0 80 180),
           (⟨"B", some 80, some 180⟩, haversine_distance 0 0 80 180)] ∧
    get_nearest_station haversine_distance 0 0 exCitiesTieR =
      .ok ("B", haversine_distance 0 0 80 180) ∧
    ¬ (List.Chain' (fun a b : Station ℝ × ℝ => a.2 < b.2)
        [(⟨"A", some 80, some 180⟩, haversine_distance 0 0 80 180),
         (⟨"B", some 80, some 180⟩, haversine_distance 0 0 80 180)] ∧
      (⟨"A", some 80, some 180⟩ : Station ℝ).id = "B") := by
  refine ⟨?_, ?_, ?_⟩
  · simp [get_k_nearest_stations_eq, kFoldE_cons, kFoldE, heapPush,
      List.orderedInsert, heapLE, string_A_le_B, entryD, validEntries,
      allStations, stationEntries, Station.parsedCoords, exCitiesTieR,
      List.insertionSort]
  · simp [get_nearest_station_eq, firstMin, entryD, validEntries, allStations,
      stationEntries, Station.parsedCoords, exCitiesTieR]
  · intro hcl
    exact absurd hcl.2 (by decide)

/-- **C8.** The haversine distance is symmetric in its two points, and
the distance from any point to itself is zero. -/
theorem haversine_symmetric_and_zero_on_diagonal :
    (∀ lat1 lon1 lat2 lon2 : ℝ,
      haversine_distance lat1 lon1 lat2 lon2 = haversine_distance lat2 lon2 lat1 lon1) ∧
    ∀ lat lon : ℝ, haversine_distance lat lon lat lon = 0 := by
  constructor
  · intro lat1 lon1 lat2 lon2
    have key : ∀ a b : ℝ, Real.sin ((a - b) / 2) ^ 2 = Real.sin ((b - a) / 2) ^ 2 := by
      intro a b
      rw [show (a - b) / 2 = -((b - a) / 2) by ring, Real.sin_neg]
      ring
    simp only [haversine_distance]
    rw [key (radians lat2) (radians lat1), key (radians lon2) (radians lon1),
      mul_comm (Real.cos (radians lat1)) (Real.cos (radians lat2))]
  · intro lat lon
    exact haversine_distance_self lat lon

/-- **C9.** For every real input, `haversine_distance` is exactly the
haversine formula with Earth radius 6371 after degree-to-radian
conversion, its value is non-negative, and the checked version (which
makes the `math.sqrt` / `math.asin` domain errors explicit) always
returns a value: the radicand always lies in `[0, 1]`, so neither
library call can raise. -/
theorem haversine_contract (lat1 lon1 lat2 lon2 : ℝ) :
    haversine_distance_checked lat1 lon1 lat2 lon2 =
      some (haversine_distance lat1 lon1 lat2 lon2) ∧
    0 ≤ haversine_distance lat1 lon1 lat2 lon2 ∧
    haversine_distance lat1 lon1 lat2 lon2 = haversineFormulaSpec lat1 lon1 lat2 lon2 := by
  have ha := haversine_radicand_eq (radians lat1) (radians lat2)
    (radians lon2 - radians lon1)
  have hb := inner_product_bound (radians lat1) (radians lat2)
    (radians lon2 - radians lon1)
  have ha0 : 0 ≤ Real.sin ((radians lat2 - radians lat1) / 2) ^ 2 +
      Real.cos (radians lat1) * Real.cos (radians lat2) *
        Real.sin ((radians lon2 - radians lon1) / 2) ^ 2 := by
    rw [ha]; linarith [hb.2]
  have ha1 : Real.sin ((radians lat2 - radians lat1) / 2) ^ 2 +
      Real.cos (radians lat1) * Real.cos (radians lat2) *
        Real.sin ((radians lon2 - radians lon1) / 2) ^ 2 ≤ 1 := by
    rw [ha]; linarith [hb.1]
  have hs1 : Real.sqrt (Real.sin ((radians lat2 - radians lat1) / 2) ^ 2 +
      Real.cos (radians lat1) * Real.cos (radians lat2) *
        Real.sin ((radians lon2 - radians lon1) / 2) ^ 2) ≤ 1 := by
    calc Real.sqrt _ ≤ Real.sqrt 1 := Real.sqrt_le_sqrt ha1
    _ = 1 := Real.sqrt_one
  refine ⟨?_, ?_, ?_⟩
  · simp only [haversine_distance_checked, haversine_distance]
    rw [if_neg (not_lt.mpr ha0), if_neg (not_lt.mpr hs1)]
  · exact haversine_distance_nonneg lat1 lon1 lat2 lon2
  · simp only [haversine_distance, haversineFormulaSpec]
    ring

end Vayuayan
